import Mathlib

/-!
# Verification of the page-layout comparison core

A shallow embedding, in Lean 4, of the metadata retrieval-and-comparison
pipeline of `app/mcp/tools/page_layout_comparison.py`, together with proofs
about the parser (`_parse_layout`), the diff engine (`_compare`), the archive
extractor (`_extract_layouts_from_zip`), the retrieval poll loop
(`_fetch_all_layouts`) and the per-artifact row classification inside
`compare_page_layouts`.

Modelling conventions:
* A well-formed XML document is represented post-parse, as the element tree
  `Xml` (tag, text, children).  The python code only ever navigates direct
  children by namespaced local name, which `findall`/`findFirst` model.
* A raw artifact payload (a string that may or may not be well-formed XML) is
  represented by `Except String Xml`: `.ok tree` for a well-formed payload and
  `.error diag` for a malformed one carrying the lxml diagnostic.
* Python `dict` assignment `d[k] = v` is modelled by `dictInsert`, which keeps
  the position of an existing key and replaces its value, or appends a fresh
  key at the end — exactly CPython 3.7+ insertion-order semantics.
* Python `str.strip()` is modelled by `String.trim`, `str.lower()` by
  `String.toLower`, and `sorted` on a set of strings by `Finset.sort (· ≤ ·)`
  with Lean's code-point lexicographic order on `String`, which agrees with
  CPython's string comparison.
* Wall-clock time in the poll loop advances only through the 3 s sleep between
  polls; with a 120 s deadline the loop therefore performs exactly 40 polls
  before timing out, which the fuel argument of `pollAux` models.
-/

set_option autoImplicit false

namespace PageLayout

/-- Python `str.strip()`: drop leading and trailing whitespace.  (A
kernel-reducible restatement of `String.trim` over the character list.) -/
def trimStr (s : String) : String :=
  ⟨((s.data.dropWhile Char.isWhitespace).reverse.dropWhile Char.isWhitespace).reverse⟩

/-- Python `str.lower()` for ASCII strings. -/
def lowerStr (s : String) : String :=
  ⟨s.data.map Char.toLower⟩

/-- Whether `p` is a prefix of `s`, over character lists. -/
def isPrefixB : List Char → List Char → Bool
  | [], _ => true
  | _ :: _, [] => false
  | a :: p, b :: s => a == b && isPrefixB p s

/-- Whether `p` occurs as a contiguous run inside `s`. -/
def isSubB (p : List Char) : List Char → Bool
  | [] => isPrefixB p []
  | c :: s => isPrefixB p (c :: s) || isSubB p s

/-- Python `suffix in s`-style containment test, `pat` non-empty. -/
def strContains (s pat : String) : Bool :=
  isSubB pat.data s.data

/-- Python `s.endswith(suffix)`. -/
def endsWithB (s suffix : String) : Bool :=
  isPrefixB suffix.data.reverse s.data.reverse

/-- Python `s[:-n]` for `0 < n ≤ len(s)`: drop the last `n` characters. -/
def dropRightStr (s : String) (n : Nat) : String :=
  ⟨s.data.take (s.data.length - n)⟩

/-- Python `s.split("/")[-1]`: the run of characters after the last slash. -/
def lastSegment (s : String) : String :=
  ⟨s.data.foldl (fun acc c => if c = '/' then [] else acc ++ [c]) []⟩

/-- An XML element: tag (namespaced local name), optional text, children. -/
inductive Xml where
  | mk (tag : String) (text : Option String) (children : List Xml)

def Xml.tag : Xml → String
  | .mk t _ _ => t

def Xml.text : Xml → Option String
  | .mk _ x _ => x

def Xml.children : Xml → List Xml
  | .mk _ _ c => c

/-- `el.findall("m:tag", ns)`: direct children with the given local name. -/
def findall (x : Xml) (t : String) : List Xml :=
  x.children.filter (fun c => c.tag == t)

/-- `el.find("m:tag", ns)`: first direct child with the given local name. -/
def findFirst (x : Xml) (t : String) : Option Xml :=
  (findall x t).head?

/-- The field contributed by one `layoutItems` element, if any.  Embeds the
source condition `f_el is not None and f_el.text and f_el.text.strip()`:
an item contributes `f_el.text.strip()` exactly when it has a `field` child
whose text is neither absent, empty, nor whitespace-only. -/
def itemField (item : Xml) : Option String :=
  match findFirst item "field" with
  | none => none
  | some f =>
    match f.text with
    | none => none
    | some t => if trimStr t = "" then none else some (trimStr t)

/-- The label the parser assigns to a `layoutSections` element:
`(lbl_el.text or "").strip() if lbl_el is not None else "Unnamed Section"`. -/
def sectionLabel (sec : Xml) : String :=
  match findFirst sec "label" with
  | some lbl => trimStr (lbl.text.getD "")
  | none => "Unnamed Section"

/-- The ordered field sequence of one section: columns in document order,
items in document order, spacer items skipped. -/
def sectionFields (sec : Xml) : List String :=
  (findall sec "layoutColumns").flatMap
    (fun col => (findall col "layoutItems").filterMap itemField)

/-- The related-list name contributed by one `relatedLists` element, if any. -/
def relatedListName (rl : Xml) : Option String :=
  match findFirst rl "relatedList" with
  | none => none
  | some r =>
    match r.text with
    | none => none
    | some t => if trimStr t = "" then none else some (trimStr t)

/-- Python `d[k] = v` on an insertion-ordered dict: replace the value in
place when the key exists, append otherwise. -/
def dictInsert {α : Type} : List (String × α) → String → α → List (String × α)
  | [], k, v => [(k, v)]
  | (k', v') :: rest, k, v =>
    if k' = k then (k, v) :: rest else (k', v') :: dictInsert rest k v

/-- Python `d.get(k)`. -/
def dictLookup {α : Type} : List (String × α) → String → Option α
  | [], _ => none
  | (k', v) :: rest, k => if k' = k then some v else dictLookup rest k

/-- The canonical layout model produced by `_parse_layout`. -/
structure ParsedLayout where
  sections : List (String × List String)
  all_fields : Finset String
  related_lists : Finset String
  deriving DecidableEq

/-- One iteration of the `for section in root.findall(...)` loop of
`_parse_layout`: store the section's fields under its label in the dict and
add them all to the `all_fields` set. -/
def parseStep (acc : List (String × List String) × Finset String) (sec : Xml) :
    List (String × List String) × Finset String :=
  (dictInsert acc.1 (sectionLabel sec) (sectionFields sec),
   acc.2 ∪ (sectionFields sec).toFinset)

/-- Embedding of `_parse_layout`, applied to the already-parsed element tree
of a well-formed payload. -/
def parseLayout (root : Xml) : ParsedLayout :=
  let res := (findall root "layoutSections").foldl parseStep ([], ∅)
  { sections := res.1
    all_fields := res.2
    related_lists := ((findall root "relatedLists").filterMap relatedListName).toFinset }

/-- The structured delta produced by `_compare`: six sorted difference lists
and the four-per-kind raw totals it returns. -/
structure DiffResult where
  fields_missing_in_target : List String
  fields_extra_in_target : List String
  sections_missing_in_target : List String
  sections_extra_in_target : List String
  related_lists_missing_in_target : List String
  related_lists_extra_in_target : List String
  source_field_count : Nat
  target_field_count : Nat
  source_section_count : Nat
  target_section_count : Nat
  source_related_list_count : Nat
  target_related_list_count : Nat
  deriving DecidableEq

/-- Python `sorted(s)` on a set of strings: the elements in code-point
lexicographic order. -/
def sortedStr (s : Finset String) : List String :=
  s.sort (· ≤ ·)

/-- The section-label set of a model: `set(parsed["sections"].keys())`. -/
def sectionKeys (m : ParsedLayout) : Finset String :=
  (m.sections.map Prod.fst).toFinset

/-- Embedding of `_compare`: diff two parsed layout models. -/
def compareModels (source target : ParsedLayout) : DiffResult :=
  { fields_missing_in_target := sortedStr (source.all_fields \ target.all_fields)
    fields_extra_in_target := sortedStr (target.all_fields \ source.all_fields)
    sections_missing_in_target := sortedStr (sectionKeys source \ sectionKeys target)
    sections_extra_in_target := sortedStr (sectionKeys target \ sectionKeys source)
    related_lists_missing_in_target := sortedStr (source.related_lists \ target.related_lists)
    related_lists_extra_in_target := sortedStr (target.related_lists \ source.related_lists)
    source_field_count := source.all_fields.card
    target_field_count := target.all_fields.card
    source_section_count := (sectionKeys source).card
    target_section_count := (sectionKeys target).card
    source_related_list_count := source.related_lists.card
    target_related_list_count := target.related_lists.card }

/-- A raw artifact payload: the parse of a well-formed XML string, or the
lxml diagnostic of a malformed one. -/
def RawXml : Type := Except String Xml

/-- A raw artifact map, `{layout_base_name: xml_string}`, in insertion order. -/
def RawMap : Type := List (String × RawXml)

/-- `_parse_layout` on a raw payload: `etree.fromstring` failure becomes
`ValueError(f"Could not parse layout XML: {exc}")`. -/
def parseRaw : RawXml → Except String ParsedLayout
  | .error exc => .error ("Could not parse layout XML: " ++ exc)
  | .ok root => .ok (parseLayout root)

/-- The per-artifact terminal state of the row state machine in
`compare_page_layouts`. -/
inductive RowStatus where
  | compared (diff : DiffResult)
  | sourceNotFound
  | targetNotFound
  | notFoundEither
  | parseError (msg : String)
  deriving DecidableEq

/-- The `Status` cell of a row. -/
def statusString : RowStatus → String
  | .compared _ => "Compared"
  | .sourceNotFound => "Source Not Found"
  | .targetNotFound => "Target Not Found"
  | .notFoundEither => "Not Found in Either Org"
  | .parseError msg => "Parse Error: " ++ msg

/-- Classification of one requested artifact name from the two raw maps —
the body of the `for name in names` loop of `compare_page_layouts`.  When the
source payload is malformed its diagnostic wins (the source parse runs
first); otherwise a malformed target payload reports its own. -/
def classifyRow (srcMap tgtMap : RawMap) (name : String) : RowStatus :=
  match dictLookup srcMap name, dictLookup tgtMap name with
  | none, none => .notFoundEither
  | none, some _ => .sourceNotFound
  | some _, none => .targetNotFound
  | some s, some t =>
    match parseRaw s with
    | .error e => .parseError e
    | .ok sd =>
      match parseRaw t with
      | .error e => .parseError e
      | .ok td => .compared (compareModels sd td)

/-- All report rows, one per requested name, in the caller-supplied order. -/
def compareRows (srcMap tgtMap : RawMap) (names : List String) :
    List (String × RowStatus) :=
  names.map (fun n => (n, classifyRow srcMap tgtMap n))

/-- `_cell`: semicolon-joined cell value for multi-value fields. -/
def cellJoin (l : List String) : String :=
  String.intercalate "; " l

/-- The 21 CSV cells of one row, in `CSV_COLUMNS` order.  A non-`Compared`
row is `_blank_row` with only the two names and the status filled in. -/
def csvRow (name : String) (st : RowStatus) : List String :=
  match st with
  | .compared d =>
    [name, name, "Compared",
     cellJoin d.fields_missing_in_target, cellJoin d.fields_extra_in_target,
     toString d.fields_missing_in_target.length,
     toString d.fields_extra_in_target.length,
     cellJoin d.sections_missing_in_target, cellJoin d.sections_extra_in_target,
     toString d.sections_missing_in_target.length,
     toString d.sections_extra_in_target.length,
     cellJoin d.related_lists_missing_in_target,
     cellJoin d.related_lists_extra_in_target,
     toString d.related_lists_missing_in_target.length,
     toString d.related_lists_extra_in_target.length,
     toString d.source_field_count, toString d.target_field_count,
     toString d.source_section_count, toString d.target_section_count,
     toString d.source_related_list_count, toString d.target_related_list_count]
  | st => [name, name, statusString st] ++ List.replicate 18 ""

/-- One archive entry: its path inside the ZIP and the UTF-8 decode of its
bytes — `.ok text` when the bytes decode, `.error diag` when they do not
(the `UnicodeDecodeError` diagnostic). -/
structure ZipEntry where
  path : String
  content : Except String String

/-- The suffix-stripping loop of `_extract_layouts_from_zip`:
try `.layout-meta.xml` first, then `.layout`, case-insensitively, and strip
the first that matches. -/
def stripLayoutSuffix (base : String) : String :=
  if endsWithB (lowerStr base) ".layout-meta.xml" then
    dropRightStr base ".layout-meta.xml".data.length
  else if endsWithB (lowerStr base) ".layout" then
    dropRightStr base ".layout".data.length
  else base

/-- Whether an entry passes both filters of `_extract_layouts_from_zip`:
its lower-cased path contains `/layouts/` and ends in a recognized suffix. -/
def matchesLayoutEntry (e : ZipEntry) : Bool :=
  strContains (lowerStr e.path) "/layouts/" &&
    (endsWithB (lowerStr e.path) ".layout-meta.xml" ||
      endsWithB (lowerStr e.path) ".layout")

/-- The entry loop of `_extract_layouts_from_zip`.  Non-matching entries are
skipped; a matching entry is read and decoded, and a decode failure raises —
the exception propagates, so the loop stops and no map is returned. -/
def extractAux : List ZipEntry → List (String × String) →
    Except String (List (String × String))
  | [], acc => .ok acc
  | e :: rest, acc =>
    if matchesLayoutEntry e then
      match e.content with
      | .error diag => .error diag
      | .ok txt => extractAux rest (dictInsert acc (stripLayoutSuffix (lastSegment e.path)) txt)
    else extractAux rest acc

/-- Embedding of `_extract_layouts_from_zip` over the entry list of the
archive, in archive enumeration order. -/
def extractLayouts (entries : List ZipEntry) : Except String (List (String × String)) :=
  extractAux entries []

/-- The three optional elements `_fetch_all_layouts` reads out of one
`checkRetrieveStatus` response, plus the encoded payload. -/
structure PollResp where
  done : Option String
  status : Option String
  errorMessage : Option String
  zipFile : Option String

/-- The error taxonomy of one organization's retrieval.  `protocolError` and
`retrieveFailed` are the two `RuntimeError`s of `_fetch_all_layouts`;
`timeout` is its `TimeoutError`, a distinct constructor just as
`TimeoutError` is a distinct python exception class; `extractError` is an
exception propagating out of the ZIP extraction. -/
inductive FetchError where
  | protocolError (msg : String)
  | retrieveFailed (msg : String)
  | timeout (msg : String)
  | extractError (msg : String)
  deriving DecidableEq

/-- The poll loop of `_fetch_all_layouts`.  `polls i` is the parsed response
of the `i`-th `checkRetrieveStatus` call; `extract` is the base64-decode plus
ZIP extraction applied to a non-empty payload.  Time advances 3 s per
not-done poll (the sleep); the fuel counts the polls still possible before
the 120 s deadline, so the loop starts with fuel 40 and the fuel reaching 0
is `time.time() < deadline` turning false. -/
def pollAux {β : Type} (extract : String → Except String (List (String × β)))
    (polls : Nat → PollResp) (url : String) :
    Nat → Nat → Except FetchError (List (String × β))
  | _, 0 => .error (.timeout
      ("Metadata API retrieve from " ++ url ++ " did not complete within 120 s."))
  | i, fuel + 1 =>
    let r := polls i
    if r.done = some "true" then
      if r.status = some "Failed" then
        .error (.retrieveFailed
          ("Retrieve failed on " ++ url ++ ": " ++ (r.errorMessage.getD "unknown error")))
      else
        match r.zipFile with
        | none => .ok []
        | some z =>
          if z = "" then .ok []
          else
            match extract z with
            | .error diag => .error (.extractError diag)
            | .ok m => .ok m
    else pollAux extract polls url (i + 1) fuel

/-- Embedding of `_fetch_all_layouts` for one organization: `submitId` is
the text of the `id` element of the `retrieve` response (`none` when the
element is absent), then the poll loop runs with the 120 s deadline. -/
def fetchAllLayouts {β : Type} (extract : String → Except String (List (String × β)))
    (submitId : Option String) (polls : Nat → PollResp) (url : String) :
    Except FetchError (List (String × β)) :=
  match submitId with
  | none => .error (.protocolError
      ("No retrieve ID returned from " ++ url ++ ". Check org credentials and API version."))
  | some _ => pollAux extract polls url 0 40

/-- The connection descriptor resolved for one organization. -/
structure Creds where
  url : String
  token : String
  deriving DecidableEq

/-- The `same_org` test of `compare_page_layouts`:
`src_url == tgt_url and src_token == tgt_token`. -/
def sameOrgB (src tgt : Creds) : Bool :=
  src.url == tgt.url && src.token == tgt.token

/-- Step 3 of `compare_page_layouts` with the retrieval calls made explicit
as thunks: fetch the source map; when `same_org` the target map is the very
same result with no second call, otherwise the target is fetched too.  The
second component counts the retrieval invocations actually made. -/
def fetchPhase {α : Type} (fetchSrc fetchTgt : Unit → Except FetchError α)
    (sameOrg : Bool) : Except FetchError (α × α) × Nat :=
  match fetchSrc () with
  | .error e => (.error e, 1)
  | .ok s =>
    if sameOrg then (.ok (s, s), 1)
    else
      match fetchTgt () with
      | .error e => (.error e, 2)
      | .ok t => (.ok (s, t), 2)

/-- Embedding of the fallible part of `compare_page_layouts`: validate the
name list, resolve `same_org`, fetch (once or twice), then classify every
requested name in caller order.  `.error e` is the `format_error_response`
path, on which no CSV row is ever written; `.ok rows` is the list of report
rows subsequently serialized. -/
def comparePageLayouts (fetchSrc fetchTgt : Unit → Except FetchError RawMap)
    (src tgt : Creds) (names : List String) :
    Except FetchError (List (String × RowStatus)) :=
  if names.isEmpty then .error (.protocolError "layout_names must not be empty.")
  else
    match (fetchPhase fetchSrc fetchTgt (sameOrgB src tgt)).1 with
    | .error e => .error e
    | .ok (s, t) => .ok (compareRows s t names)

/-- An item the parser skips: a `layoutItems` element with no field child or
with an absent/empty/whitespace-only field text (a spacer). -/
def isSpacerItem (i : Xml) : Bool :=
  i.tag == "layoutItems" && (itemField i).isNone

/-- Remove the spacer items of one `layoutColumns` element. -/
def dropSpacersCol (c : Xml) : Xml :=
  if c.tag == "layoutColumns" then
    Xml.mk c.tag c.text (c.children.filter (fun i => !(isSpacerItem i)))
  else c

/-- Remove the spacer items of one `layoutSections` element. -/
def dropSpacersSec (s : Xml) : Xml :=
  if s.tag == "layoutSections" then
    Xml.mk s.tag s.text (s.children.map dropSpacersCol)
  else s

/-- Remove every spacer item of a layout document. -/
def dropSpacers (root : Xml) : Xml :=
  Xml.mk root.tag root.text (root.children.map dropSpacersSec)

/-! ### Concrete example documents -/

/-- A `layoutItems` element bound to field `f`. -/
def fieldItem (f : String) : Xml :=
  .mk "layoutItems" none [.mk "field" (some f) []]

/-- A one-column section labelled `label` holding the fields `fs`. -/
def mkSection (label : String) (fs : List String) : Xml :=
  .mk "layoutSections" none
    [.mk "label" (some label) [], .mk "layoutColumns" none (fs.map fieldItem)]

/-- A layout with two sections sharing the label `"Info"`, the first holding
field `"X"` and the second field `"Y"`. -/
def dupRoot : Xml :=
  .mk "Layout" none [mkSection "Info" ["X"], mkSection "Info" ["Y"]]

/-- A layout with one section `"Info"` holding fields `"Name"` and
`"Phone"`, and related list `"Cases"`. -/
def infoRoot : Xml :=
  .mk "Layout" none
    [mkSection "Info" ["Name", "Phone"],
     .mk "relatedLists" none [.mk "relatedList" (some "Cases") []]]

/-- A section whose `label` element is present but whitespace-only. -/
def blankLabelSection : Xml :=
  .mk "layoutSections" none
    [.mk "label" (some "   ") [], .mk "layoutColumns" none [fieldItem "A"]]

/-- A section with no `label` element at all. -/
def noLabelSection : Xml :=
  .mk "layoutSections" none [.mk "layoutColumns" none [fieldItem "B"]]

/-! ### Dict lemmas -/

theorem dictLookup_dictInsert_self {α : Type} (d : List (String × α)) (k : String) (v : α) :
    dictLookup (dictInsert d k v) k = some v := by
  induction d with
  | nil => simp [dictInsert, dictLookup]
  | cons p rest ih =>
    by_cases h : p.1 = k
    · simp [dictInsert, dictLookup, h]
    · cases p with
      | mk k' v' => simp only at h; simp [dictInsert, dictLookup, h, ih]

theorem dictLookup_dictInsert_ne {α : Type} (d : List (String × α)) (k k' : String) (v : α)
    (h : k' ≠ k) : dictLookup (dictInsert d k v) k' = dictLookup d k' := by
  induction d with
  | nil => simp [dictInsert, dictLookup, Ne.symm h]
  | cons p rest ih =>
    cases p with
    | mk k0 v0 =>
      by_cases h0 : k0 = k
      · subst h0
        simp [dictInsert, dictLookup, Ne.symm h]
      · simp [dictInsert, dictLookup, h0, ih]

theorem mem_keys_dictInsert {α : Type} (d : List (String × α)) (k a : String) (v : α)
    (h : a ∈ (dictInsert d k v).map Prod.fst) : a ∈ d.map Prod.fst ∨ a = k := by
  induction d with
  | nil => simpa [dictInsert] using h
  | cons p rest ih =>
    cases p with
    | mk k0 v0 =>
      by_cases h0 : k0 = k
      · subst h0
        simp [dictInsert] at h ⊢
        tauto
      · simp only [dictInsert, if_neg h0, List.map_cons, List.mem_cons] at h
        rcases h with h | h
        · exact Or.inl (by simp [h])
        · rcases ih h with h' | h'
          · exact Or.inl (by simp [h'])
          · exact Or.inr h'

theorem keys_nodup_dictInsert {α : Type} (d : List (String × α)) (k : String) (v : α)
    (h : (d.map Prod.fst).Nodup) : ((dictInsert d k v).map Prod.fst).Nodup := by
  induction d with
  | nil => simp [dictInsert]
  | cons p rest ih =>
    cases p with
    | mk k0 v0 =>
      simp only [List.map_cons, List.nodup_cons] at h
      by_cases h0 : k0 = k
      · subst h0
        simpa [dictInsert] using h
      · simp only [dictInsert, if_neg h0, List.map_cons, List.nodup_cons]
        refine ⟨fun hmem => ?_, ih h.2⟩
        rcases mem_keys_dictInsert rest k k0 v hmem with h' | h'
        · exact h.1 h'
        · exact h0 h'

theorem dictInsert_fresh {α : Type} (d : List (String × α)) (k : String) (v : α)
    (h : k ∉ d.map Prod.fst) : dictInsert d k v = d ++ [(k, v)] := by
  induction d with
  | nil => rfl
  | cons p rest ih =>
    cases p with
    | mk k0 v0 =>
      simp only [List.map_cons, List.mem_cons] at h
      push_neg at h
      simp [dictInsert, Ne.symm h.1, ih h.2]

/-! ### Parser structure lemmas -/

theorem foldl_parseStep_snd (secs : List Xml) (d : List (String × List String))
    (s : Finset String) :
    (secs.foldl parseStep (d, s)).2 = s ∪ (secs.flatMap sectionFields).toFinset := by
  induction secs generalizing d s with
  | nil => simp
  | cons sec rest ih =>
    simp [parseStep, ih, List.toFinset_append, Finset.union_assoc]

theorem foldl_parseStep_fst (secs : List Xml) (d : List (String × List String))
    (s : Finset String) :
    (secs.foldl parseStep (d, s)).1 =
      secs.foldl (fun d' sec => dictInsert d' (sectionLabel sec) (sectionFields sec)) d := by
  induction secs generalizing d s with
  | nil => rfl
  | cons sec rest ih => simp [parseStep, ih]

theorem parse_allFields_eq (root : Xml) :
    (parseLayout root).all_fields =
      ((findall root "layoutSections").flatMap sectionFields).toFinset := by
  simp [parseLayout, foldl_parseStep_snd]

theorem parse_sections_eq (root : Xml) :
    (parseLayout root).sections =
      (findall root "layoutSections").foldl
        (fun d sec => dictInsert d (sectionLabel sec) (sectionFields sec)) [] := by
  simp [parseLayout, foldl_parseStep_fst]

theorem foldl_dictInsert_of_nodup (secs : List Xml) (d : List (String × List String))
    (h : (d.map Prod.fst ++ secs.map sectionLabel).Nodup) :
    secs.foldl (fun d' sec => dictInsert d' (sectionLabel sec) (sectionFields sec)) d =
      d ++ secs.map (fun sec => (sectionLabel sec, sectionFields sec)) := by
  induction secs generalizing d with
  | nil => simp
  | cons sec rest ih =>
    have hk : sectionLabel sec ∉ d.map Prod.fst := by
      intro hmem
      have := (List.nodup_append.mp h).2.2
      exact this hmem (by simp)
    rw [List.foldl_cons, dictInsert_fresh d _ _ hk, ih]
    · simp
    · have : d.map Prod.fst ++ sectionLabel sec :: rest.map sectionLabel =
          (d ++ [(sectionLabel sec, sectionFields sec)]).map Prod.fst ++ rest.map sectionLabel := by
        simp
      rw [← this]
      simpa using h

theorem foldl_dictInsert_lookup (secs : List Xml) (d : List (String × List String))
    (l : String) :
    dictLookup (secs.foldl
        (fun d' sec => dictInsert d' (sectionLabel sec) (sectionFields sec)) d) l =
      match secs.reverse.find? (fun sec => sectionLabel sec == l) with
      | some sec => some (sectionFields sec)
      | none => dictLookup d l := by
  induction secs generalizing d with
  | nil => simp
  | cons sec rest ih =>
    rw [List.foldl_cons, ih, List.reverse_cons, List.find?_append]
    cases hfind : rest.reverse.find? (fun sec => sectionLabel sec == l) with
    | some s => simp [hfind]
    | none =>
      by_cases hl : sectionLabel sec = l
      · subst hl
        simp [hfind, dictLookup_dictInsert_self]
      · simp [hfind, hl, dictLookup_dictInsert_ne _ _ _ _ (fun he => hl he.symm)]

theorem sections_keys_nodup (root : Xml) :
    ((parseLayout root).sections.map Prod.fst).Nodup := by
  rw [parse_sections_eq]
  have : ∀ (secs : List Xml) (d : List (String × List String)),
      (d.map Prod.fst).Nodup →
      ((secs.foldl (fun d' sec => dictInsert d' (sectionLabel sec) (sectionFields sec)) d).map
        Prod.fst).Nodup := by
    intro secs
    induction secs with
    | nil => intro d hd; simpa using hd
    | cons sec rest ih =>
      intro d hd
      exact ih _ (keys_nodup_dictInsert d _ _ hd)
  exact this _ [] (by simp)

/-! ### Spacer-removal lemmas -/

theorem tag_dropSpacersCol (c : Xml) : (dropSpacersCol c).tag = c.tag := by
  unfold dropSpacersCol
  split <;> rfl

theorem text_dropSpacersCol (c : Xml) : (dropSpacersCol c).text = c.text := by
  unfold dropSpacersCol
  split <;> rfl

theorem tag_dropSpacersSec (s : Xml) : (dropSpacersSec s).tag = s.tag := by
  unfold dropSpacersSec
  split <;> rfl

theorem dropSpacersCol_of_ne (c : Xml) (h : ¬ c.tag = "layoutColumns") :
    dropSpacersCol c = c := by
  unfold dropSpacersCol
  simp [h]

theorem dropSpacersSec_of_ne (s : Xml) (h : ¬ s.tag = "layoutSections") :
    dropSpacersSec s = s := by
  unfold dropSpacersSec
  simp [h]

theorem Xml.eta (x : Xml) : Xml.mk x.tag x.text x.children = x := by
  cases x
  rfl

theorem dropSpacersCol_eq_of_tag (c : Xml) (h : c.tag = "layoutColumns") :
    dropSpacersCol c = Xml.mk c.tag c.text (c.children.filter (fun i => !(isSpacerItem i))) := by
  unfold dropSpacersCol
  rw [if_pos (by simp [h])]

theorem dropSpacersSec_eq_of_tag (s : Xml) (h : s.tag = "layoutSections") :
    dropSpacersSec s = Xml.mk s.tag s.text (s.children.map dropSpacersCol) := by
  unfold dropSpacersSec
  rw [if_pos (by simp [h])]

theorem findall_map_children (t tag : String) (text : Option String) (ch : List Xml)
    (f : Xml → Xml) (hf : ∀ x, (f x).tag = x.tag) :
    findall (Xml.mk tag text (ch.map f)) t = (findall (Xml.mk tag text ch) t).map f := by
  unfold findall
  simp only [Xml.children]
  rw [List.filter_map]
  have hp : ((fun (c : Xml) => c.tag == t) ∘ f) = (fun (c : Xml) => c.tag == t) := by
    funext x
    simp [Function.comp, hf]
  rw [hp]

theorem findFirst_map_children (t tag : String) (text : Option String) (ch : List Xml)
    (f : Xml → Xml) (hf : ∀ x, (f x).tag = x.tag) :
    findFirst (Xml.mk tag text (ch.map f)) t =
      (findFirst (Xml.mk tag text ch) t).map f := by
  unfold findFirst
  rw [findall_map_children t tag text ch f hf, List.head?_map]

theorem sectionLabel_dropSpacersSec (s : Xml) :
    sectionLabel (dropSpacersSec s) = sectionLabel s := by
  by_cases hs : s.tag = "layoutSections"
  · rw [dropSpacersSec_eq_of_tag s hs]
    unfold sectionLabel
    rw [findFirst_map_children _ _ _ _ _ tag_dropSpacersCol, Xml.eta]
    cases findFirst s "label" with
    | none => rfl
    | some lbl => simp [text_dropSpacersCol]
  · rw [dropSpacersSec_of_ne s hs]

theorem filterMap_itemField_filter (items : List Xml) :
    ((items.filter (fun i => i.tag == "layoutItems" && !(isSpacerItem i))).filterMap
        itemField) =
      ((items.filter (fun c => c.tag == "layoutItems")).filterMap itemField) := by
  induction items with
  | nil => rfl
  | cons i rest ih =>
    by_cases htag : (i.tag == "layoutItems") = true
    · cases hfi : itemField i with
      | none =>
        have hsp : isSpacerItem i = true := by
          simp [isSpacerItem, htag, hfi]
        simp [List.filter_cons, hsp, htag, List.filterMap_cons, hfi, ih]
      | some v =>
        have hsp : isSpacerItem i = false := by
          simp [isSpacerItem, hfi]
        simp [List.filter_cons, hsp, htag, List.filterMap_cons, hfi, ih]
    · have hsp : (i.tag == "layoutItems" && !(isSpacerItem i)) = false := by
        simp [htag]
      simp [List.filter_cons, hsp, htag, ih]

theorem flatMap_congr_mem {α β : Type} (l : List α) (f g : α → List β)
    (h : ∀ a ∈ l, f a = g a) : l.flatMap f = l.flatMap g := by
  induction l with
  | nil => rfl
  | cons a rest ih =>
    simp only [List.flatMap_cons]
    rw [h a (by simp), ih (fun a ha => h a (by simp [ha]))]

theorem colFields_dropSpacersCol (col : Xml) (h : col.tag = "layoutColumns") :
    (findall (dropSpacersCol col) "layoutItems").filterMap itemField =
      (findall col "layoutItems").filterMap itemField := by
  rw [dropSpacersCol_eq_of_tag col h]
  unfold findall
  simp only [Xml.children]
  rw [List.filter_filter]
  exact filterMap_itemField_filter col.children

theorem sectionFields_dropSpacersSec (s : Xml) :
    sectionFields (dropSpacersSec s) = sectionFields s := by
  by_cases hs : s.tag = "layoutSections"
  · rw [dropSpacersSec_eq_of_tag s hs]
    unfold sectionFields
    rw [findall_map_children _ _ _ _ _ tag_dropSpacersCol, Xml.eta, List.flatMap_map]
    apply flatMap_congr_mem
    intro col hcol
    have hctag : col.tag = "layoutColumns" := by
      have := List.of_mem_filter hcol
      simpa using this
    exact colFields_dropSpacersCol col hctag
  · rw [dropSpacersSec_of_ne s hs]

theorem findall_dropSpacers_sections (root : Xml) :
    findall (dropSpacers root) "layoutSections" =
      (findall root "layoutSections").map dropSpacersSec := by
  cases root with
  | mk tag text ch =>
    unfold dropSpacers
    simp only [Xml.tag, Xml.text, Xml.children]
    exact findall_map_children _ _ _ _ _ tag_dropSpacersSec

theorem findall_dropSpacers_relatedLists (root : Xml) :
    findall (dropSpacers root) "relatedLists" = findall root "relatedLists" := by
  cases root with
  | mk tag text ch =>
    unfold dropSpacers
    simp only [Xml.tag, Xml.text, Xml.children]
    rw [findall_map_children _ _ _ _ _ tag_dropSpacersSec]
    have : ∀ x ∈ findall (Xml.mk tag text ch) "relatedLists", dropSpacersSec x = x := by
      intro x hx
      have hxt : x.tag = "relatedLists" := by
        have := List.of_mem_filter hx
        simpa using this
      exact dropSpacersSec_of_ne x (by simp [hxt])
    calc (findall (Xml.mk tag text ch) "relatedLists").map dropSpacersSec
        = (findall (Xml.mk tag text ch) "relatedLists").map id := List.map_congr_left this
      _ = _ := List.map_id _

/-! ### Row and fetch lemmas -/

theorem compareRows_map_fst (srcMap tgtMap : RawMap) (names : List String) :
    (compareRows srcMap tgtMap names).map Prod.fst = names := by
  have hfst : (Prod.fst ∘ fun n => (n, classifyRow srcMap tgtMap n)) =
      (id : String → String) := by
    funext n
    rfl
  simp [compareRows, hfst]

theorem pollAux_timeout {β : Type} (extract : String → Except String (List (String × β)))
    (polls : Nat → PollResp) (url : String) (i fuel : Nat)
    (h : ∀ j, i ≤ j → j < i + fuel → ¬ ((polls j).done = some "true")) :
    pollAux extract polls url i fuel = .error (.timeout
      ("Metadata API retrieve from " ++ url ++ " did not complete within 120 s.")) := by
  induction fuel generalizing i with
  | zero => rfl
  | succ fuel ih =>
    have hd : ¬ ((polls i).done = some "true") := h i (le_refl i) (by omega)
    have hrec := ih (i + 1) (fun j hj1 hj2 => h j (by omega) (by omega))
    simp only [pollAux, hd, if_false]
    exact hrec

theorem extractAux_not_ok (e : ZipEntry) (diag : String)
    (hm : matchesLayoutEntry e = true) (hc : e.content = .error diag) :
    ∀ (entries : List ZipEntry) (acc : List (String × String)), e ∈ entries →
      ∀ m, extractAux entries acc ≠ .ok m := by
  intro entries
  induction entries with
  | nil =>
    intro acc he
    cases he
  | cons a rest ih =>
    intro acc he m
    by_cases hma : matchesLayoutEntry a = true
    · cases hca : a.content with
      | error d => simp [extractAux, hma, hca]
      | ok txt =>
        have he' : e ∈ rest := by
          rcases List.mem_cons.mp he with h | h
          · rw [h, hca] at hc
            cases hc
          · exact h
        simp only [extractAux, hma, if_true, hca]
        exact ih _ he' m
    · have he' : e ∈ rest := by
        rcases List.mem_cons.mp he with h | h
        · exact absurd (h ▸ hm) hma
        · exact h
      simp only [extractAux, hma, if_false]
      exact ih _ he' m

/-! ### Claim theorems -/

/-- C1: for every pair of parsed layout models, the diff engine returns
`fields_missing_in_target` exactly `all_fields(source) − all_fields(target)`
and `fields_extra_in_target` exactly `all_fields(target) − all_fields(source)`
as sets, analogously for sections by label and for related lists, and every
multi-valued output list is sorted lexicographically rather than in insertion
order. -/
theorem claim_C1_diff_sets_exact_and_sorted (source target : ParsedLayout) :
    (∀ f, f ∈ (compareModels source target).fields_missing_in_target ↔
      f ∈ source.all_fields ∧ f ∉ target.all_fields) ∧
    (∀ f, f ∈ (compareModels source target).fields_extra_in_target ↔
      f ∈ target.all_fields ∧ f ∉ source.all_fields) ∧
    (∀ l, l ∈ (compareModels source target).sections_missing_in_target ↔
      l ∈ sectionKeys source ∧ l ∉ sectionKeys target) ∧
    (∀ l, l ∈ (compareModels source target).sections_extra_in_target ↔
      l ∈ sectionKeys target ∧ l ∉ sectionKeys source) ∧
    (∀ r, r ∈ (compareModels source target).related_lists_missing_in_target ↔
      r ∈ source.related_lists ∧ r ∉ target.related_lists) ∧
    (∀ r, r ∈ (compareModels source target).related_lists_extra_in_target ↔
      r ∈ target.related_lists ∧ r ∉ source.related_lists) ∧
    (compareModels source target).fields_missing_in_target.Sorted (· ≤ ·) ∧
    (compareModels source target).fields_extra_in_target.Sorted (· ≤ ·) ∧
    (compareModels source target).sections_missing_in_target.Sorted (· ≤ ·) ∧
    (compareModels source target).sections_extra_in_target.Sorted (· ≤ ·) ∧
    (compareModels source target).related_lists_missing_in_target.Sorted (· ≤ ·) ∧
    (compareModels source target).related_lists_extra_in_target.Sorted (· ≤ ·) := by
  refine ⟨?_, ?_, ?_, ?_, ?_, ?_, ?_, ?_, ?_, ?_, ?_, ?_⟩ <;>
    simp [compareModels, sortedStr, Finset.mem_sort, Finset.mem_sdiff, Finset.sort_sorted]

/-- C2 (amended): `all_fields` is exactly the union of the field lists of all
`layoutSections` elements of the document; it therefore equals the union of
the entries of `sections` whenever no two sections share a label, but when
two sections do share a label the overwritten section's fields stay in
`all_fields` while leaving `sections`, so the claimed invariant fails. -/
theorem claim_C2_allFields_union (root : Xml) :
    (parseLayout root).all_fields =
      ((findall root "layoutSections").flatMap sectionFields).toFinset ∧
    (((findall root "layoutSections").map sectionLabel).Nodup →
      (parseLayout root).all_fields =
        ((parseLayout root).sections.flatMap Prod.snd).toFinset) := by
  refine ⟨parse_allFields_eq root, fun h => ?_⟩
  have hsec : (parseLayout root).sections =
      (findall root "layoutSections").map
        (fun sec => (sectionLabel sec, sectionFields sec)) := by
    rw [parse_sections_eq, foldl_dictInsert_of_nodup _ [] (by simpa using h)]
    simp
  rw [hsec, parse_allFields_eq]
  congr 1
  rw [List.flatMap_map]

/-- C2 witness: a document with distinct section labels on which the
union invariant holds. -/
theorem claim_C2_allFields_union_witness :
    ((findall infoRoot "layoutSections").map sectionLabel).Nodup ∧
    (parseLayout infoRoot).all_fields =
      ((parseLayout infoRoot).sections.flatMap Prod.snd).toFinset :=
  ⟨by decide, (claim_C2_allFields_union infoRoot).2 (by decide)⟩

/-- C2 counterexample: with two sections both labelled `"Info"`, the first
holding field `"X"` and the second field `"Y"`, `all_fields` is
`{"X", "Y"}` but the union of `sections`' field lists is only `{"Y"}`. -/
theorem claim_C2_counterexample :
    ¬ ((parseLayout dupRoot).all_fields =
        ((parseLayout dupRoot).sections.flatMap Prod.snd).toFinset) := by
  decide

/-- C3 (amended): the parser's `sections` structure keeps exactly one entry
per distinct label; when several sections share a label the single entry's
field sequence is that of the last such section in document order (earlier
duplicates are overwritten, not kept as independent entries). -/
theorem claim_C3_duplicate_labels_merged (root : Xml) (l : String) :
    ((parseLayout root).sections.map Prod.fst).Nodup ∧
    dictLookup (parseLayout root).sections l =
      ((findall root "layoutSections").reverse.find?
        (fun sec => sectionLabel sec == l)).map sectionFields := by
  refine ⟨sections_keys_nodup root, ?_⟩
  rw [parse_sections_eq, foldl_dictInsert_lookup]
  cases (findall root "layoutSections").reverse.find? (fun sec => sectionLabel sec == l) with
  | none => simp [dictLookup]
  | some s => simp

/-- C3 counterexample: a document with two sections labelled `"Info"` (the
first holding field `"X"`, the second `"Y"`) parses to a single `sections`
entry holding only the second section's fields. -/
theorem claim_C3_counterexample :
    (findall dupRoot "layoutSections").length = 2 ∧
    (parseLayout dupRoot).sections = [("Info", ["Y"])] := by
  decide

/-- C8: the report rows are emitted one per supplied artifact name, in
exactly the caller-supplied order; the rows depend on the fetched maps only
through name lookup, never through archive enumeration order. -/
theorem claim_C8_rows_in_caller_order (srcMap tgtMap srcMap2 tgtMap2 : RawMap)
    (names : List String)
    (hs : ∀ n, dictLookup srcMap n = dictLookup srcMap2 n)
    (ht : ∀ n, dictLookup tgtMap n = dictLookup tgtMap2 n) :
    (compareRows srcMap tgtMap names).map Prod.fst = names ∧
    (compareRows srcMap tgtMap names).length = names.length ∧
    compareRows srcMap tgtMap names = compareRows srcMap2 tgtMap2 names := by
  have hfst : (Prod.fst ∘ fun n => (n, classifyRow srcMap tgtMap n)) = (id : String → String) := by
    funext n
    rfl
  refine ⟨by simp [compareRows, hfst], by simp [compareRows], ?_⟩
  unfold compareRows
  apply List.map_congr_left
  intro n _
  simp [classifyRow, hs n, ht n]

/-- C8 witness: a three-name run has its rows in exactly request order. -/
theorem claim_C8_rows_in_caller_order_witness :
    (compareRows [("B", Except.ok infoRoot)] [] ["C", "A", "B"]).map Prod.fst =
      ["C", "A", "B"] :=
  (claim_C8_rows_in_caller_order [("B", Except.ok infoRoot)] [] [("B", Except.ok infoRoot)]
    [] ["C", "A", "B"] (fun _ => rfl) (fun _ => rfl)).1

/-- C9: spacer-skipping law — removing every layout item that lacks a field
reference, or whose field reference is empty or whitespace-only, leaves the
parsed model unchanged: such items appear in neither `all_fields` nor any
section's field sequence. -/
theorem claim_C9_spacers_never_contribute (root : Xml) :
    parseLayout (dropSpacers root) = parseLayout root := by
  have h1 := findall_dropSpacers_sections root
  have h2 := findall_dropSpacers_relatedLists root
  have hstep : (fun (acc : List (String × List String) × Finset String) s =>
      parseStep acc (dropSpacersSec s)) = parseStep := by
    funext acc s
    simp [parseStep, sectionLabel_dropSpacersSec, sectionFields_dropSpacersSec]
  simp [parseLayout, h1, h2, List.foldl_map, hstep]

/-- C10: a section whose `label` element is present but has empty or
whitespace-only text gets the empty-string label, not the sentinel; the
sentinel `"Unnamed Section"` is assigned only when the `label` element is
absent. -/
theorem claim_C10_blank_label_not_sentinel (sec : Xml) :
    (∀ lbl, findFirst sec "label" = some lbl → trimStr (lbl.text.getD "") = "" →
      sectionLabel sec = "") ∧
    (findFirst sec "label" = none → sectionLabel sec = "Unnamed Section") := by
  constructor
  · intro lbl h ht
    simp [sectionLabel, h, ht]
  · intro h
    simp [sectionLabel, h]

/-- C10 witness: a whitespace-only label gives `""`; an absent label element
gives the sentinel. -/
theorem claim_C10_blank_label_not_sentinel_witness :
    sectionLabel blankLabelSection = "" ∧
    sectionLabel noLabelSection = "Unnamed Section" :=
  ⟨(claim_C10_blank_label_not_sentinel blankLabelSection).1
      (Xml.mk "label" (some "   ") []) rfl (by decide),
   (claim_C10_blank_label_not_sentinel noLabelSection).2 rfl⟩

/-- A demo connection descriptor. -/
def demoCreds : Creds := ⟨"https://org.example", "token123"⟩

/-- A demo fetched map holding one well-formed artifact. -/
def demoMap : RawMap := [("Acc", Except.ok infoRoot)]

/-- C4: when source and target resolve to descriptors with equal base URL
and equal token, the fetch phase makes exactly one retrieval call and reuses
its result for both sides, and every artifact present and parseable gets a
`Compared` row whose six diff lists are empty (hence all six diff counts,
which the row builder takes as the lists' lengths, are zero). -/
theorem claim_C4_same_org_single_fetch (fetchSrc fetchTgt : Unit → Except FetchError RawMap)
    (src tgt : Creds) (s : RawMap)
    (hurl : src.url = tgt.url) (htok : src.token = tgt.token)
    (hs : fetchSrc () = .ok s) :
    fetchPhase fetchSrc fetchTgt (sameOrgB src tgt) = (.ok (s, s), 1) ∧
    (∀ name x m, dictLookup s name = some x → parseRaw x = .ok m →
      classifyRow s s name = .compared (compareModels m m) ∧
      statusString (classifyRow s s name) = "Compared" ∧
      (compareModels m m).fields_missing_in_target = [] ∧
      (compareModels m m).fields_extra_in_target = [] ∧
      (compareModels m m).sections_missing_in_target = [] ∧
      (compareModels m m).sections_extra_in_target = [] ∧
      (compareModels m m).related_lists_missing_in_target = [] ∧
      (compareModels m m).related_lists_extra_in_target = []) := by
  have horg : sameOrgB src tgt = true := by
    simp [sameOrgB, hurl, htok]
  constructor
  · simp [fetchPhase, hs, horg]
  · intro name x m hl hp
    have hc : classifyRow s s name = .compared (compareModels m m) := by
      simp [classifyRow, hl, hp]
    refine ⟨hc, by simp [hc, statusString], ?_, ?_, ?_, ?_, ?_, ?_⟩ <;>
      simp [compareModels, sortedStr]

/-- C4 witness: a same-org run over a one-artifact map makes one call and
self-compares to an empty field diff. -/
theorem claim_C4_same_org_single_fetch_witness :
    fetchPhase (fun _ => .ok demoMap) (fun _ => .ok demoMap) (sameOrgB demoCreds demoCreds) =
      (.ok (demoMap, demoMap), 1) ∧
    classifyRow demoMap demoMap "Acc" =
      .compared (compareModels (parseLayout infoRoot) (parseLayout infoRoot)) ∧
    (compareModels (parseLayout infoRoot) (parseLayout infoRoot)).fields_missing_in_target
      = [] := by
  have h := claim_C4_same_org_single_fetch (fun _ => .ok demoMap) (fun _ => .ok demoMap)
    demoCreds demoCreds demoMap rfl rfl rfl
  have h2 := h.2 "Acc" (Except.ok infoRoot) (parseLayout infoRoot) rfl rfl
  exact ⟨h.1, h2.1, h2.2.2.1⟩

/-- C5: when the completion flag never becomes true in any of the 40 polls
that fit before the 120-second deadline, the retrieval returns the
`TimeoutError` (a constructor distinct from the server-reported
`retrieveFailed`), and the whole operation aborts with that error, so no
report row is produced for the run. -/
theorem claim_C5_timeout_aborts (extract : String → Except String RawMap)
    (polls : Nat → PollResp) (url jobId : String)
    (fetchTgt : Unit → Except FetchError RawMap) (src tgt : Creds)
    (names : List String)
    (h : ∀ i, i < 40 → ¬ ((polls i).done = some "true")) (hn : names ≠ []) :
    fetchAllLayouts extract (some jobId) polls url = .error (.timeout
      ("Metadata API retrieve from " ++ url ++ " did not complete within 120 s.")) ∧
    (∀ m1 m2, FetchError.timeout m1 ≠ FetchError.retrieveFailed m2) ∧
    comparePageLayouts (fun _ => fetchAllLayouts extract (some jobId) polls url)
      fetchTgt src tgt names = .error (.timeout
        ("Metadata API retrieve from " ++ url ++ " did not complete within 120 s.")) := by
  have hf : fetchAllLayouts extract (some jobId) polls url = .error (.timeout
      ("Metadata API retrieve from " ++ url ++ " did not complete within 120 s.")) := by
    unfold fetchAllLayouts
    exact pollAux_timeout extract polls url 0 40 (fun j hj1 hj2 => h j (by omega))
  refine ⟨hf, fun m1 m2 => by simp, ?_⟩
  unfold comparePageLayouts
  rw [if_neg (by simpa using hn)]
  simp [fetchPhase, hf]

/-- Poll responses on which the completion flag never turns true. -/
def neverDonePolls : Nat → PollResp := fun _ => ⟨some "false", none, none, none⟩

/-- C5 witness: a never-done poll stream times out the whole comparison. -/
theorem claim_C5_timeout_aborts_witness :
    comparePageLayouts
      (fun _ => fetchAllLayouts (fun _ => .ok ([] : RawMap)) (some "04s000")
        neverDonePolls "https://org.example")
      (fun _ => .ok ([] : RawMap)) demoCreds demoCreds ["Acc"] =
      .error (.timeout ("Metadata API retrieve from " ++ "https://org.example" ++
        " did not complete within 120 s.")) :=
  (claim_C5_timeout_aborts (fun _ => .ok ([] : RawMap)) neverDonePolls
    "https://org.example" "04s000" (fun _ => .ok ([] : RawMap)) demoCreds demoCreds
    ["Acc"] (fun i _ => by simp [neverDonePolls]) (by simp)).2.2

/-- C6: a parse failure on either side's payload for one artifact is scoped
to that artifact: its row is `Parse Error: <message>` with every diff cell
left blank, and every requested artifact still receives its own row in the
caller-supplied order. -/
theorem claim_C6_parse_error_scoped (srcMap tgtMap : RawMap) (names : List String)
    (name : String) (rawS rawT : RawXml) (e : String)
    (hs : dictLookup srcMap name = some rawS)
    (ht : dictLookup tgtMap name = some rawT)
    (herr : parseRaw rawS = .error e ∨
      ((∃ m, parseRaw rawS = .ok m) ∧ parseRaw rawT = .error e)) :
    classifyRow srcMap tgtMap name = .parseError e ∧
    statusString (classifyRow srcMap tgtMap name) = "Parse Error: " ++ e ∧
    (csvRow name (classifyRow srcMap tgtMap name)).drop 3 = List.replicate 18 "" ∧
    (compareRows srcMap tgtMap names).map Prod.fst = names := by
  have hcl : classifyRow srcMap tgtMap name = .parseError e := by
    rcases herr with h1 | ⟨⟨m, hm⟩, h2⟩
    · simp [classifyRow, hs, ht, h1]
    · simp [classifyRow, hs, ht, hm, h2]
  refine ⟨hcl, by simp [hcl, statusString], ?_, compareRows_map_fst srcMap tgtMap names⟩
  rw [hcl]
  simp [csvRow]

/-- A source map whose second artifact's payload is malformed. -/
def badMapSrc : RawMap :=
  [("Good", Except.ok infoRoot), ("Bad", Except.error "mismatched tag, line 3")]

/-- A target map where both artifacts are well-formed. -/
def badMapTgt : RawMap :=
  [("Good", Except.ok infoRoot), ("Bad", Except.ok infoRoot)]

/-- C6 witness: one malformed artifact among two gets its parse-error row
while both requested names still get rows in order. -/
theorem claim_C6_parse_error_scoped_witness :
    classifyRow badMapSrc badMapTgt "Bad" =
      .parseError "Could not parse layout XML: mismatched tag, line 3" ∧
    (compareRows badMapSrc badMapTgt ["Good", "Bad"]).map Prod.fst = ["Good", "Bad"] := by
  have h := claim_C6_parse_error_scoped badMapSrc badMapTgt ["Good", "Bad"] "Bad"
    (Except.error "mismatched tag, line 3") (Except.ok infoRoot)
    "Could not parse layout XML: mismatched tag, line 3" rfl rfl (Or.inl rfl)
  exact ⟨h.1, h.2.2.2⟩

/-- C7 (amended): an archive entry that passes the layout filters but whose
bytes fail UTF-8 decoding aborts the whole extraction — the decode error
propagates and no artifact map is returned, rather than the entry being
omitted as not-found.  (Entries that fail the filters are never read, so
only matching entries can trigger this.) -/
theorem claim_C7_decode_failure_aborts (entries : List ZipEntry) (e : ZipEntry)
    (diag : String) (he : e ∈ entries) (hm : matchesLayoutEntry e = true)
    (hc : e.content = .error diag) :
    ∀ m, extractLayouts entries ≠ .ok m :=
  extractAux_not_ok e diag hm hc entries [] he

/-- A decodable matching entry. -/
def goodEntry : ZipEntry := ⟨"unpackaged/layouts/Acc-L1.layout", .ok "<Layout/>"⟩

/-- A matching entry whose bytes do not decode as UTF-8. -/
def badEntry : ZipEntry := ⟨"unpackaged/layouts/Bad-L2.layout", .error "invalid continuation byte"⟩

/-- A decodable matching entry listed after the undecodable one. -/
def tailEntry : ZipEntry := ⟨"unpackaged/layouts/Tail-L3.layout", .ok "<Layout/>"⟩

/-- C7 counterexample: with an undecodable entry between two good ones, the
extraction returns the decode error — it does not return a map omitting the
bad entry, so the remaining entry is never extracted. -/
theorem claim_C7_counterexample :
    extractLayouts [goodEntry, badEntry, tailEntry] = .error "invalid continuation byte" ∧
    ∀ m, extractLayouts [goodEntry, badEntry, tailEntry] ≠ .ok m := by
  constructor
  · rfl
  · intro m h
    rw [show extractLayouts [goodEntry, badEntry, tailEntry] =
        .error "invalid continuation byte" from rfl] at h
    cases h

/-- C7 witness: the abort theorem applied to a two-entry archive whose first
entry is undecodable. -/
theorem claim_C7_decode_failure_aborts_witness :
    badEntry ∈ [badEntry, tailEntry] ∧ matchesLayoutEntry badEntry = true ∧
    ∀ m, extractLayouts [badEntry, tailEntry] ≠ .ok m :=
  ⟨List.mem_cons_self _ _, rfl,
   claim_C7_decode_failure_aborts [badEntry, tailEntry] badEntry
     "invalid continuation byte" (List.mem_cons_self _ _) rfl rfl⟩

end PageLayout
